import Mathlib

/-!
# Authentication provider identifiers (`pkg/authn/providers.go`)

A shallow embedding of the provider-type vocabulary of package `authn`:
the normalizer `Provider`, the string forms `String` and `Pretty`, the
comparators and the capability predicates, followed by the properties the
specification states about them.

Go strings are embedded as Lean strings (sequences of Unicode code points).
The three helpers `clean.TypeLowerUnderscore`, `list.Contains` and
`txt.UpperFirst` live in packages whose sources are not available; each is
modelled from the specification's description and marked as such.
-/

namespace Authn

/-! ## Data model -/

/-- Go's built-in `string` type. -/
abbrev GoString : Type := String

/-- ProviderType represents an authentication provider type
(`type ProviderType string`); the conversions `string(t)` and
`ProviderType(s)` are the identity. -/
abbrev ProviderType : Type := GoString

/-- Undefined provider, the empty identifier. -/
@[match_pattern] def ProviderUndefined : ProviderType := ""
/-- Default provider. -/
@[match_pattern] def ProviderDefault : ProviderType := "default"
/-- Client provider. -/
@[match_pattern] def ProviderClient : ProviderType := "client"
/-- Application provider. -/
@[match_pattern] def ProviderApplication : ProviderType := "application"
/-- Access token provider. -/
@[match_pattern] def ProviderAccessToken : ProviderType := "access_token"
/-- Local provider. -/
@[match_pattern] def ProviderLocal : ProviderType := "local"
/-- LDAP provider. -/
@[match_pattern] def ProviderLDAP : ProviderType := "ldap"
/-- Link provider. -/
@[match_pattern] def ProviderLink : ProviderType := "link"
/-- None provider. -/
@[match_pattern] def ProviderNone : ProviderType := "none"

/-- RemoteProviders contains remote auth providers. -/
def RemoteProviders : List GoString := [ProviderLDAP]

/-- LocalProviders contains local auth providers. -/
def LocalProviders : List GoString := [ProviderLocal]

/-- Method2FAProviders contains auth providers that support Method2FA. -/
def Method2FAProviders : List GoString := [ProviderDefault, ProviderLocal, ProviderLDAP]

/-- ClientProviders contains all client auth providers. -/
def ClientProviders : List GoString := [ProviderClient, ProviderApplication, ProviderAccessToken]

/-! ## Helpers from packages outside the available sources -/

/-- Separator conversion of a single character: a space or a hyphen becomes
an underscore, every other character is kept. -/
def separatorToUnderscore (c : Char) : Char :=
  if c = ' ' ∨ c = '-' then '_' else c

/-- Modelled from the spec: `clean.TypeLowerUnderscore` of package `pkg/clean`,
whose source is missing. Section 4.1 step 1: "Lowercase the input and convert
separator characters (spaces, hyphens) to a single canonical separator
(underscore), producing a normalized token." Lower-casing acts on the basic
Latin letters `A`-`Z`. -/
def clean.TypeLowerUnderscore (s : GoString) : GoString :=
  ⟨(s.data.map Char.toLower).map separatorToUnderscore⟩

/-- Modelled from the spec: `list.Contains` of package `pkg/list`, whose source
is missing. Section 4.5: "Each predicate performs set membership against one
fixed capability set." -/
def list.Contains (l : List GoString) (s : GoString) : Bool :=
  l.elem s

/-- Modelled from the spec: `txt.UpperFirst` of package `pkg/txt`, whose source
is missing. Section 4.3: "the canonicalized string form with its first
character upper-cased." Upper-casing acts on the basic Latin letters `a`-`z`. -/
def txt.UpperFirst (s : GoString) : GoString :=
  match s.data with
  | [] => ""
  | c :: cs => ⟨c.toUpper :: cs⟩

/-! ## `providers.go` -/

/-- The body of `Provider` with its call to `clean.TypeLowerUnderscore`
abstracted: `normalize` stands for the helper, the `switch` over the
normalized token is the one of the source. -/
def ProviderWith (normalize : GoString → GoString) (s : GoString) : ProviderType :=
  match normalize s with
  | "" | "_" | "-" | "null" | "nil" | "0" | "false" => ProviderDefault
  | "token" | "url" => ProviderLink
  | "pass" | "passwd" | "password" => ProviderLocal
  | "app" | "application" => ProviderApplication
  | "ldap" | "ad" | "ldap/ad" | "ldap\\ad" => ProviderLDAP
  | "client" | "client_credentials" | "oauth2" => ProviderClient
  | s => s

/-- Provider casts a string to a normalized provider type. -/
def Provider (s : GoString) : ProviderType :=
  ProviderWith clean.TypeLowerUnderscore s

/-- String returns the provider identifier as a string. -/
def ProviderType.String (t : ProviderType) : GoString :=
  match t with
  | "" => ProviderDefault
  | "token" => ProviderLink
  | "password" => ProviderLocal
  | "client" | "client credentials" | "client_credentials" | "oauth2" => ProviderClient
  | t => t

/-- Pretty returns the provider identifier in an easy-to-read format. -/
def ProviderType.Pretty (t : ProviderType) : GoString :=
  match t with
  | ProviderLDAP => "LDAP/AD"
  | ProviderClient => "Client"
  | ProviderAccessToken => "Access Token"
  | t => txt.UpperFirst t.String

/-- Equal checks if the type matches the specified string. -/
def ProviderType.Equal (t : ProviderType) (s : GoString) : Bool :=
  t == Provider s

/-- NotEqual checks if the type does not match the specified string. -/
def ProviderType.NotEqual (t : ProviderType) (s : GoString) : Bool :=
  !t.Equal s

/-- Is compares the provider with another type. -/
def ProviderType.Is (t : ProviderType) (providerType : ProviderType) : Bool :=
  t == providerType

/-- IsNot checks if the provider is not the specified type. -/
def ProviderType.IsNot (t : ProviderType) (providerType : ProviderType) : Bool :=
  t != providerType

/-- IsUndefined checks if the provider is undefined. -/
def ProviderType.IsUndefined (t : ProviderType) : Bool :=
  t == ""

/-- IsRemote checks if the provider is external. -/
def ProviderType.IsRemote (t : ProviderType) : Bool :=
  list.Contains RemoteProviders t

/-- IsLocal checks if local authentication is possible. -/
def ProviderType.IsLocal (t : ProviderType) : Bool :=
  list.Contains LocalProviders t

/-- Supports2FA checks if the provider supports two-factor authentication with
a passcode. -/
def ProviderType.Supports2FA (t : ProviderType) : Bool :=
  list.Contains Method2FAProviders t

/-- IsClient checks if the authentication is provided for a client. -/
def ProviderType.IsClient (t : ProviderType) : Bool :=
  list.Contains ClientProviders t

/-- IsApplication checks if the authentication is provided for an application. -/
def ProviderType.IsApplication (t : ProviderType) : Bool :=
  t == ProviderApplication

/-- IsDefault checks if this is the default provider. -/
def ProviderType.IsDefault (t : ProviderType) : Bool :=
  t.String == ProviderDefault.String

/-! ## Reference notions used to state the properties -/

/-- The entries of the alias table of section 4.1 step 2 (the left-hand
sides of the synonym groups). -/
def aliasEntries : List GoString :=
  ["", "_", "-", "null", "nil", "0", "false", "token", "url", "pass", "passwd", "password",
    "app", "application", "ldap", "ad", "ldap/ad", "ldap\\ad", "client", "client_credentials",
    "oauth2"]

/-- Equality of two strings ignoring the case of the basic Latin letters. -/
def equalFoldASCII (a b : GoString) : Bool :=
  a.data.map Char.toLower == b.data.map Char.toLower

/-- A string with its basic Latin letters lower-cased. -/
def lowerCased (s : GoString) : GoString :=
  ⟨s.data.map Char.toLower⟩

/-- A string with every space and every hyphen replaced by an underscore. -/
def separatorsReplaced (s : GoString) : GoString :=
  ⟨s.data.map separatorToUnderscore⟩

/-- The collapsing table of the canonical string form as section 4.2 lists it. -/
def canonicalStringTable : List (GoString × GoString) :=
  [("", "default"), ("token", "link"), ("password", "local"), ("client", "client"),
    ("client credentials", "client"), ("client_credentials", "client"), ("oauth2", "client")]

/-- Reference for `String`: the table entry of the identifier when it has one,
otherwise the identifier unchanged. -/
def canonicalStringRef (t : ProviderType) : GoString :=
  match canonicalStringTable.lookup t with
  | some c => c
  | none => t

/-! ## Auxiliary facts about the helpers -/

theorem toLower_toLower (c : Char) : c.toLower.toLower = c.toLower := by
  by_cases h : 65 ≤ c.toNat ∧ c.toNat ≤ 90
  · obtain ⟨h1, h2⟩ := h
    have hc : c = Char.ofNat c.toNat := (Char.ofNat_toNat c).symm
    generalize c.toNat = n at h1 h2 hc
    subst hc
    interval_cases n <;> rfl
  · have hfix : c.toLower = c := by simp [Char.toLower, h]
    rw [hfix, hfix]

theorem normalizeChar_idem (c : Char) :
    separatorToUnderscore (separatorToUnderscore c.toLower).toLower
      = separatorToUnderscore c.toLower := by
  by_cases h : c.toLower = ' ' ∨ c.toLower = '-'
  · have hsep : separatorToUnderscore c.toLower = '_' := by simp [separatorToUnderscore, h]
    rw [hsep]; rfl
  · have hsep : separatorToUnderscore c.toLower = c.toLower := by
      simp [separatorToUnderscore, h]
    rw [hsep, toLower_toLower, hsep]

theorem normalizeChar_separator (c : Char) :
    separatorToUnderscore (separatorToUnderscore c).toLower
      = separatorToUnderscore c.toLower := by
  by_cases h : c = ' ' ∨ c = '-'
  · rcases h with h | h <;> subst h <;> rfl
  · have hsep : separatorToUnderscore c = c := by simp [separatorToUnderscore, h]
    rw [hsep]

theorem TypeLowerUnderscore_idem (s : GoString) :
    clean.TypeLowerUnderscore (clean.TypeLowerUnderscore s) = clean.TypeLowerUnderscore s := by
  simp only [clean.TypeLowerUnderscore, List.map_map]
  congr 1
  apply List.map_congr_left
  intro c _
  simp [normalizeChar_idem]

theorem TypeLowerUnderscore_lowerCased (s : GoString) :
    clean.TypeLowerUnderscore (lowerCased s) = clean.TypeLowerUnderscore s := by
  simp only [clean.TypeLowerUnderscore, lowerCased, List.map_map]
  congr 1
  apply List.map_congr_left
  intro c _
  simp [toLower_toLower]

theorem TypeLowerUnderscore_separatorsReplaced (s : GoString) :
    clean.TypeLowerUnderscore (separatorsReplaced s) = clean.TypeLowerUnderscore s := by
  simp only [clean.TypeLowerUnderscore, separatorsReplaced, List.map_map]
  congr 1
  apply List.map_congr_left
  intro c _
  simp [normalizeChar_separator]

theorem TypeLowerUnderscore_equalFold {a b : GoString} (h : equalFoldASCII a b = true) :
    clean.TypeLowerUnderscore a = clean.TypeLowerUnderscore b := by
  have hmap : a.data.map Char.toLower = b.data.map Char.toLower := by
    simpa [equalFoldASCII] using h
  simp only [clean.TypeLowerUnderscore, hmap]

/-! ## Auxiliary facts about the normalizer -/

theorem ProviderWith_congr {f g : GoString → GoString} {a b : GoString} (h : f a = g b) :
    ProviderWith f a = ProviderWith g b := by
  unfold ProviderWith
  rw [h]

theorem Provider_congr {a b : GoString}
    (h : clean.TypeLowerUnderscore a = clean.TypeLowerUnderscore b) :
    Provider a = Provider b :=
  ProviderWith_congr h

theorem ProviderWith_cases (f : GoString → GoString) (s : GoString) :
    (f s ∉ aliasEntries ∧ ProviderWith f s = f s) ∨
      (f s ∈ aliasEntries ∧
        ProviderWith f s ∈ [ProviderDefault, ProviderLink, ProviderLocal, ProviderApplication,
          ProviderLDAP, ProviderClient]) := by
  unfold ProviderWith
  generalize f s = t
  split <;> first | (right; exact ⟨by decide, by decide⟩) | skip
  left
  refine ⟨?_, rfl⟩
  simp only [aliasEntries, List.mem_cons, List.mem_singleton, List.not_mem_nil, or_false, not_or]
  simp_all

theorem ProviderWith_of_not_alias (f : GoString → GoString) (s : GoString)
    (h : f s ∉ aliasEntries) : ProviderWith f s = f s := by
  rcases ProviderWith_cases f s with ⟨_, h2⟩ | ⟨h1, _⟩
  · exact h2
  · exact absurd h1 h

theorem ProviderWith_ne_undefined (f : GoString → GoString) (s : GoString) :
    ProviderWith f s ≠ ProviderUndefined := by
  rcases ProviderWith_cases f s with ⟨h1, h2⟩ | ⟨_, h2⟩
  · rw [h2]
    intro h
    rw [h] at h1
    exact h1 (by decide)
  · intro h
    rw [h] at h2
    exact absurd h2 (by decide)

/-! ## Auxiliary facts about the string form and the predicates -/

theorem String_eq_default_iff (t : ProviderType) :
    t.String = ProviderDefault ↔ t = ProviderUndefined ∨ t = ProviderDefault := by
  unfold ProviderType.String
  split <;> simp_all [ProviderUndefined, ProviderDefault, ProviderLink, ProviderLocal,
    ProviderClient]

theorem IsDefault_iff (t : ProviderType) :
    t.IsDefault = true ↔ t = ProviderUndefined ∨ t = ProviderDefault := by
  rw [← String_eq_default_iff]
  simp only [ProviderType.IsDefault, beq_iff_eq]
  exact Iff.rfl

theorem ProviderWith_IsDefault_iff (f : GoString → GoString) (s : GoString) :
    (ProviderWith f s).IsDefault = true ↔ ProviderWith f s = ProviderDefault := by
  rw [IsDefault_iff]
  constructor
  · rintro (h | h)
    · exact absurd h (ProviderWith_ne_undefined f s)
    · exact h
  · exact Or.inr

/-! ## Normalization -/

/-- C1. Normalization is idempotent: feeding the result of `Provider` back into
`Provider` never changes it, and cleaning an already-cleaned token with
`clean.TypeLowerUnderscore` returns the same token. -/
theorem Provider_idempotent (s : GoString) :
    Provider (Provider s) = Provider s ∧
      clean.TypeLowerUnderscore (clean.TypeLowerUnderscore s) = clean.TypeLowerUnderscore s := by
  refine ⟨?_, TypeLowerUnderscore_idem s⟩
  rcases ProviderWith_cases clean.TypeLowerUnderscore s with ⟨_, h⟩ | ⟨_, h⟩
  · have h2 : Provider s = clean.TypeLowerUnderscore s := h
    rw [h2, Provider_congr (TypeLowerUnderscore_idem s), h2]
  · have h2 : Provider s ∈ [ProviderDefault, ProviderLink, ProviderLocal, ProviderApplication,
        ProviderLDAP, ProviderClient] := h
    simp only [List.mem_cons, List.mem_singleton, List.not_mem_nil, or_false] at h2
    rcases h2 with h2 | h2 | h2 | h2 | h2 | h2 <;> rw [h2] <;> rfl

/-- C2. Alias resolution: a raw string that equals a member of a synonym group,
ignoring the case of ASCII letters, is normalized to the canonical identifier of
that group; with the witnesses for `local` and `default` of the specification. -/
theorem Provider_alias_resolution :
    (∀ s m : GoString, equalFoldASCII s m = true →
      (m ∈ ["", "_", "-", "null", "nil", "0", "false"] → Provider s = ProviderDefault) ∧
      (m ∈ ["token", "url"] → Provider s = ProviderLink) ∧
      (m ∈ ["pass", "passwd", "password"] → Provider s = ProviderLocal) ∧
      (m ∈ ["app", "application"] → Provider s = ProviderApplication) ∧
      (m ∈ ["ldap", "ad", "ldap/ad", "ldap\\ad"] → Provider s = ProviderLDAP) ∧
      (m ∈ ["client", "client_credentials", "oauth2"] → Provider s = ProviderClient)) ∧
    (Provider "PASSWORD" = ProviderLocal ∧ Provider "pass" = ProviderLocal ∧
      Provider "Passwd" = ProviderLocal) ∧
    (Provider "" = ProviderDefault ∧ Provider "null" = ProviderDefault ∧
      Provider "0" = ProviderDefault ∧ Provider "false" = ProviderDefault) := by
  refine ⟨?_, by decide, by decide⟩
  intro s m h
  have hs : Provider s = Provider m := Provider_congr (TypeLowerUnderscore_equalFold h)
  rw [hs]
  simp only [List.mem_cons, List.mem_singleton, List.not_mem_nil, or_false]
  refine ⟨?_, ?_, ?_, ?_, ?_, ?_⟩ <;> intro hm
  · rcases hm with hm | hm | hm | hm | hm | hm | hm <;> subst hm <;> rfl
  · rcases hm with hm | hm <;> subst hm <;> rfl
  · rcases hm with hm | hm | hm <;> subst hm <;> rfl
  · rcases hm with hm | hm <;> subst hm <;> rfl
  · rcases hm with hm | hm | hm | hm <;> subst hm <;> rfl
  · rcases hm with hm | hm | hm <;> subst hm <;> rfl

/-- C3 (as stated): every string whose normalized token is not an alias-table
entry is passed through as that token and is never `default`. This fails at
`"default"`, whose token is no alias-table entry and is the default identifier. -/
theorem Provider_passthrough_never_default_counterexample :
    ¬ (∀ s : GoString, clean.TypeLowerUnderscore s ∉ aliasEntries →
        Provider s = clean.TypeLowerUnderscore s ∧ Provider s ≠ ProviderDefault) := by
  intro h
  exact (h "default" (by decide)).2 (by decide)

/-- C3 (amended). Unknown passthrough: when the normalized token of `s` is not an
alias-table entry, `Provider s` is exactly that token; it is the default
identifier only when the token is literally `default`. -/
theorem Provider_unknown_passthrough (s : GoString)
    (h : clean.TypeLowerUnderscore s ∉ aliasEntries) :
    Provider s = clean.TypeLowerUnderscore s ∧
      (Provider s = ProviderDefault ↔ clean.TypeLowerUnderscore s = "default") := by
  have hp : Provider s = clean.TypeLowerUnderscore s :=
    ProviderWith_of_not_alias clean.TypeLowerUnderscore s h
  exact ⟨hp, by rw [hp]; rfl⟩

/-- Witness for C3 (amended): `my_custom_idp` is passed through unchanged and is
not the default identifier. -/
theorem Provider_unknown_passthrough_witness :
    clean.TypeLowerUnderscore "my_custom_idp" ∉ aliasEntries ∧
      Provider "my_custom_idp" = "my_custom_idp" ∧
      Provider "my_custom_idp" ≠ ProviderDefault :=
  ⟨by decide, (Provider_unknown_passthrough "my_custom_idp" (by decide)).1, by decide⟩

/-- C4. `Provider` is insensitive to letter case and to the choice of separator:
lower-casing the input, or replacing every space and hyphen by an underscore,
does not change the result; with the `client` witnesses of the specification. -/
theorem Provider_case_separator_insensitive :
    (∀ s : GoString, Provider s = Provider (lowerCased s) ∧
      Provider s = Provider (separatorsReplaced s)) ∧
    Provider "Client Credentials" = ProviderClient ∧
    Provider "client-credentials" = ProviderClient ∧
    Provider "client_credentials" = ProviderClient := by
  refine ⟨fun s => ⟨?_, ?_⟩, by decide, by decide, by decide⟩
  · exact (Provider_congr (TypeLowerUnderscore_lowerCased s)).symm
  · exact (Provider_congr (TypeLowerUnderscore_separatorsReplaced s)).symm

/-! ## Capability predicates and comparators -/

/-- C5. Each capability predicate is exactly membership in its fixed set, for
every identifier: `IsRemote` iff `ldap`; `IsLocal` iff `local`; `Supports2FA` iff
one of `default`, `local`, `ldap`; `IsClient` iff one of `client`, `application`,
`access_token`; with the witnesses of the specification. -/
theorem capability_predicates_membership :
    (∀ t : ProviderType,
      (t.IsRemote = true ↔ t = ProviderLDAP) ∧
      (t.IsLocal = true ↔ t = ProviderLocal) ∧
      (t.Supports2FA = true ↔ t = ProviderDefault ∨ t = ProviderLocal ∨ t = ProviderLDAP) ∧
      (t.IsClient = true ↔
        t = ProviderClient ∨ t = ProviderApplication ∨ t = ProviderAccessToken)) ∧
    ProviderLDAP.IsRemote = true ∧ ProviderLocal.IsRemote = false ∧
    ProviderAccessToken.Supports2FA = false ∧ ProviderLDAP.Supports2FA = true := by
  refine ⟨fun t => ⟨?_, ?_, ?_, ?_⟩, by decide, by decide, by decide, by decide⟩
  · simp [ProviderType.IsRemote, list.Contains, RemoteProviders]
  · simp [ProviderType.IsLocal, list.Contains, LocalProviders]
  · simp [ProviderType.Supports2FA, list.Contains, Method2FAProviders]
  · simp [ProviderType.IsClient, list.Contains, ClientProviders]

/-- C6. Equality goes through normalization: `t.Equal s` holds iff `t` is
`Provider s` (which is `t.Is (Provider s)`), `NotEqual` is its negation, and
`Is`/`IsNot` compare identifiers strictly; `link` equals both `URL` and `token`. -/
theorem Equal_via_normalization :
    (∀ (t : ProviderType) (s : GoString),
      (t.Equal s = true ↔ t = Provider s) ∧
      t.Equal s = t.Is (Provider s) ∧
      t.NotEqual s = !t.Equal s) ∧
    (∀ t u : ProviderType, (t.Is u = true ↔ t = u) ∧ (t.IsNot u = true ↔ t ≠ u)) ∧
    ProviderLink.Equal "URL" = true ∧ ProviderLink.Equal "token" = true := by
  refine ⟨fun t s => ⟨?_, rfl, rfl⟩, fun t u => ⟨?_, ?_⟩, by decide, by decide⟩
  · simp [ProviderType.Equal]
  · simp [ProviderType.Is]
  · simp [ProviderType.IsNot]

/-- C7 (as stated): every identifier whose raw value the normalizer maps to
`default` is recognized by `IsDefault`. This fails at the identifier `null`. -/
theorem IsDefault_alias_counterexample :
    ¬ (∀ t : ProviderType, Provider t = ProviderDefault → t.IsDefault = true) := by
  intro h
  exact absurd (h "null" (by decide)) (by decide)

/-- C7 (amended). `IsDefault` holds exactly for the empty identifier and for
`default`; the other aliases of `default` are recognized once normalized:
whenever `Provider` maps a raw value to `default`, `IsDefault` holds of the
normalized identifier, while it fails on the raw aliases themselves. -/
theorem IsDefault_canonical_string :
    (∀ t : ProviderType, t.IsDefault = true ↔ t = ProviderUndefined ∨ t = ProviderDefault) ∧
    (∀ t : ProviderType, Provider t = ProviderDefault → (Provider t).IsDefault = true) ∧
    (∀ t : ProviderType, t ∈ ["null", "nil", "0", "false", "_", "-"] →
      Provider t = ProviderDefault ∧ t.IsDefault = false) := by
  refine ⟨IsDefault_iff, ?_, ?_⟩
  · intro t h
    rw [h]; rfl
  · intro t ht
    simp only [List.mem_cons, List.mem_singleton, List.not_mem_nil, or_false] at ht
    rcases ht with h | h | h | h | h | h <;> subst h <;> exact ⟨by decide, by decide⟩

/-- C8. On normalized identifiers `IsDefault` coincides with being the default
constant; `Provider "nil"` is default and `Provider "ldap"` is not. -/
theorem Provider_IsDefault_iff :
    (∀ s : GoString, (Provider s).IsDefault = true ↔ Provider s = ProviderDefault) ∧
    (Provider "nil").IsDefault = true ∧ (Provider "ldap").IsDefault = false := by
  refine ⟨fun s => ?_, by decide, by decide⟩
  exact ProviderWith_IsDefault_iff clean.TypeLowerUnderscore s

/-- C9. `IsUndefined` is strictly narrower than `IsDefault`: it holds exactly for
the empty identifier, it implies `IsDefault`, and the identifier obtained from
`"null"` is default but not undefined. -/
theorem IsUndefined_narrower_than_IsDefault :
    (∀ t : ProviderType,
      (t.IsUndefined = true ↔ t = ProviderUndefined) ∧
      (t.IsUndefined = true → t.IsDefault = true)) ∧
    (Provider "null").IsDefault = true ∧ (Provider "null").IsUndefined = false := by
  refine ⟨fun t => ?_, by decide, by decide⟩
  have hu : t.IsUndefined = true ↔ t = ProviderUndefined := by
    simp [ProviderType.IsUndefined, ProviderUndefined]
  exact ⟨hu, fun h => (IsDefault_iff t).2 (Or.inl (hu.1 h))⟩

/-! ## Canonical string form -/

/-- C10. `String` equals its reference table for every identifier: the empty
identifier gives `default`, `token` gives `link`, `password` gives `local`, each
of `client`, `client credentials`, `client_credentials`, `oauth2` gives `client`,
and every other identifier is returned unchanged. -/
theorem String_eq_reference (t : ProviderType) : t.String = canonicalStringRef t := by
  unfold ProviderType.String
  split <;> first | rfl | skip
  rename_i h1 h2 h3 h4 h5 h6 h7
  simp only [canonicalStringRef, canonicalStringTable, List.lookup,
    beq_eq_false_iff_ne.mpr h1, beq_eq_false_iff_ne.mpr h2, beq_eq_false_iff_ne.mpr h3,
    beq_eq_false_iff_ne.mpr h4, beq_eq_false_iff_ne.mpr h5, beq_eq_false_iff_ne.mpr h6,
    beq_eq_false_iff_ne.mpr h7]

/-! ## Further auxiliary facts -/

theorem String_cases (t : ProviderType) :
    t.String = t ∨
      t ∈ ["", "token", "password", "client credentials", "client_credentials", "oauth2"] := by
  unfold ProviderType.String
  split <;> first | (right; decide) | (left; rfl)

theorem String_ne_empty (t : ProviderType) : t.String ≠ "" := by
  unfold ProviderType.String
  split <;> first | decide | assumption

theorem separatorToUnderscore_ne_space (c : Char) : separatorToUnderscore c ≠ ' ' := by
  unfold separatorToUnderscore
  split
  · decide
  · rename_i h
    exact fun hc => h (Or.inl hc)

theorem TypeLowerUnderscore_no_space (s : GoString) :
    ' ' ∉ (clean.TypeLowerUnderscore s).data := by
  simp only [clean.TypeLowerUnderscore, List.mem_map, not_exists, not_and]
  intro c _ hc
  exact separatorToUnderscore_ne_space c hc

theorem UpperFirst_ne_empty (s : GoString) (h : s ≠ "") : txt.UpperFirst s ≠ "" := by
  unfold txt.UpperFirst
  split
  · rename_i hd
    exact absurd (String.ext hd) h
  · intro hc
    exact absurd (congrArg String.data hc) (List.cons_ne_nil _ _)

/-! ## Relating the two tables -/

/-- C11. The collapsing table of `String` is a subset of the alias table of
`Provider`: whenever `String` rewrites an identifier, `Provider` maps the raw
identifier to the same value; hence `Provider` gives the same result on an
identifier and on its canonical string form. -/
theorem String_table_subset_of_alias_table :
    (∀ t : ProviderType,
      (t.String ≠ t → Provider t = t.String) ∧ Provider t.String = Provider t) ∧
    (ProviderType.String "client credentials" ≠ "client credentials" ∧
      Provider "client credentials" = ProviderType.String "client credentials") := by
  refine ⟨fun t => ?_, by decide, by decide⟩
  rcases String_cases t with h | h
  · exact ⟨fun hne => absurd h hne, by rw [h]⟩
  · simp only [List.mem_cons, List.mem_singleton, List.not_mem_nil, or_false] at h
    rcases h with h | h | h | h | h | h <;> subst h <;> exact ⟨fun _ => by decide, by decide⟩

/-- C17. The canonical string form is the identity on the range of the
normalizer: `String` never rewrites an identifier that came out of `Provider`. -/
theorem String_Provider_fixed (s : GoString) : (Provider s).String = Provider s := by
  rcases ProviderWith_cases clean.TypeLowerUnderscore s with ⟨hn, hp⟩ | ⟨_, hp⟩
  · have hp2 : Provider s = clean.TypeLowerUnderscore s := hp
    rcases String_cases (Provider s) with h | h
    · exact h
    · exfalso
      rw [hp2] at h
      simp only [List.mem_cons, List.mem_singleton, List.not_mem_nil, or_false] at h
      rcases h with h | h | h | h | h | h
      · exact hn (by rw [h]; decide)
      · exact hn (by rw [h]; decide)
      · exact hn (by rw [h]; decide)
      · have hsp := TypeLowerUnderscore_no_space s
        rw [h] at hsp
        exact hsp (by decide)
      · exact hn (by rw [h]; decide)
      · exact hn (by rw [h]; decide)
  · have hp2 : Provider s ∈ [ProviderDefault, ProviderLink, ProviderLocal, ProviderApplication,
        ProviderLDAP, ProviderClient] := hp
    simp only [List.mem_cons, List.mem_singleton, List.not_mem_nil, or_false] at hp2
    rcases hp2 with h | h | h | h | h | h <;> rw [h] <;> rfl

/-- C20. The canonical string form is idempotent: applying `String` to the
string form of an identifier returns that string form. -/
theorem String_idempotent (t : ProviderType) :
    ProviderType.String t.String = t.String := by
  rcases String_cases t with h | h
  · rw [h, h]
  · simp only [List.mem_cons, List.mem_singleton, List.not_mem_nil, or_false] at h
    rcases h with h | h | h | h | h | h <;> subst h <;> rfl

/-! ## Pretty-printing -/

/-- C12. `Pretty` equals its reference definition: the three fixed labels for
`ldap`, `client` and `access_token`, and for every other identifier the
canonical string form with its first character upper-cased; so the empty
identifier is shown as `Default` and `oauth2` as `Client`. -/
theorem Pretty_eq_reference :
    ProviderLDAP.Pretty = "LDAP/AD" ∧ ProviderClient.Pretty = "Client" ∧
    ProviderAccessToken.Pretty = "Access Token" ∧
    (∀ t : ProviderType, t ≠ ProviderLDAP → t ≠ ProviderClient → t ≠ ProviderAccessToken →
      t.Pretty = txt.UpperFirst t.String) ∧
    ProviderUndefined.Pretty = "Default" ∧ ProviderType.Pretty "oauth2" = "Client" := by
  refine ⟨by decide, by decide, by decide, ?_, by decide, by decide⟩
  intro t h1 h2 h3
  unfold ProviderType.Pretty
  split
  · exact absurd rfl h1
  · exact absurd rfl h2
  · exact absurd rfl h3
  · rfl

/-- C14. Every operation is total (each is a total function returning a plain
value, with no error result); in particular the canonical string form is never
empty, so `Pretty` upper-cases the first character of a non-empty string only,
and the label it returns is never empty. -/
theorem String_Pretty_nonempty (t : ProviderType) :
    t.String ≠ "" ∧ t.Pretty ≠ "" ∧
      (t.Pretty = "LDAP/AD" ∨ t.Pretty = "Client" ∨ t.Pretty = "Access Token" ∨
        (t.Pretty = txt.UpperFirst t.String ∧ t.String ≠ "")) := by
  have hs := String_ne_empty t
  refine ⟨hs, ?_, ?_⟩
  · unfold ProviderType.Pretty
    split <;> first | decide | exact UpperFirst_ne_empty _ hs
  · unfold ProviderType.Pretty
    split
    · exact Or.inl rfl
    · exact Or.inr (Or.inl rfl)
    · exact Or.inr (Or.inr (Or.inl rfl))
    · exact Or.inr (Or.inr (Or.inr ⟨rfl, hs⟩))

/-- C18. Pretty labels round-trip through the normalizer: for each of the eight
well-known constants other than the undefined one, normalizing its label gives
the constant back. -/
theorem Provider_Pretty_roundtrip :
    Provider ProviderDefault.Pretty = ProviderDefault ∧
    Provider ProviderClient.Pretty = ProviderClient ∧
    Provider ProviderApplication.Pretty = ProviderApplication ∧
    Provider ProviderAccessToken.Pretty = ProviderAccessToken ∧
    Provider ProviderLocal.Pretty = ProviderLocal ∧
    Provider ProviderLDAP.Pretty = ProviderLDAP ∧
    Provider ProviderLink.Pretty = ProviderLink ∧
    Provider ProviderNone.Pretty = ProviderNone ∧
    Provider "LDAP/AD" = ProviderLDAP ∧ Provider "Access Token" = ProviderAccessToken := by
  decide

/-! ## Further properties of the normalizer and the predicates -/

/-- C13. `IsApplication` is direct equality with `application` and implies
`IsClient`; every raw string whose normalized token is an alias of
`application` (`app`, `application`), such as `app` and `Application`, is
normalized to an identifier for which `IsApplication` holds. -/
theorem IsApplication_direct_equality :
    (∀ t : ProviderType,
      (t.IsApplication = true ↔ t = ProviderApplication) ∧
      (t.IsApplication = true → t.IsClient = true)) ∧
    (∀ (normalize : GoString → GoString) (s : GoString),
      normalize s ∈ ["app", "application"] →
      (ProviderWith normalize s).IsApplication = true) ∧
    (Provider "app").IsApplication = true ∧ (Provider "Application").IsApplication = true := by
  refine ⟨fun t => ?_, ?_, by decide, by decide⟩
  · have ha : t.IsApplication = true ↔ t = ProviderApplication := by
      simp [ProviderType.IsApplication]
    refine ⟨ha, fun h => ?_⟩
    rw [ha.1 h]
    rfl
  · intro normalize s hm
    unfold ProviderWith
    generalize normalize s = m at hm
    simp only [List.mem_cons, List.mem_singleton, List.not_mem_nil, or_false] at hm
    rcases hm with hm | hm <;> subst hm <;> rfl

/-- C15. The normalizer never yields the undefined identifier: an empty
normalized token is replaced by `default`, so `IsUndefined` is false on every
result of `Provider`, whatever the token-cleaning helper returns. -/
theorem Provider_never_undefined :
    (∀ s : GoString, Provider s ≠ ProviderUndefined ∧ (Provider s).IsUndefined = false) ∧
    (∀ (normalize : GoString → GoString) (s : GoString),
      ProviderWith normalize s ≠ ProviderUndefined) ∧
    Provider "" = ProviderDefault := by
  refine ⟨fun s => ?_, ProviderWith_ne_undefined, by decide⟩
  have h : Provider s ≠ ProviderUndefined := ProviderWith_ne_undefined _ s
  refine ⟨h, ?_⟩
  simp only [ProviderType.IsUndefined, beq_eq_false_iff_ne]
  exact h

/-- C16. Every well-known constant except the undefined one is a fixed point of
the normalizer, and the undefined constant is normalized to `default`. -/
theorem Provider_constants_fixed :
    Provider ProviderDefault = ProviderDefault ∧
    Provider ProviderClient = ProviderClient ∧
    Provider ProviderApplication = ProviderApplication ∧
    Provider ProviderAccessToken = ProviderAccessToken ∧
    Provider ProviderLocal = ProviderLocal ∧
    Provider ProviderLDAP = ProviderLDAP ∧
    Provider ProviderLink = ProviderLink ∧
    Provider ProviderNone = ProviderNone ∧
    Provider ProviderUndefined = ProviderDefault := by
  decide

/-- C19. The capability classes do not overlap: at most one of `IsRemote`,
`IsLocal`, `IsClient` holds of an identifier, `IsClient` and `Supports2FA`
never hold together, and `IsRemote` or `IsLocal` implies `Supports2FA`. -/
theorem capability_classes_disjoint (t : ProviderType) :
    ¬ (t.IsRemote = true ∧ t.IsLocal = true) ∧
    ¬ (t.IsRemote = true ∧ t.IsClient = true) ∧
    ¬ (t.IsLocal = true ∧ t.IsClient = true) ∧
    ¬ (t.IsClient = true ∧ t.Supports2FA = true) ∧
    (t.IsRemote = true ∨ t.IsLocal = true → t.Supports2FA = true) := by
  simp only [ProviderType.IsRemote, ProviderType.IsLocal, ProviderType.IsClient,
    ProviderType.Supports2FA, list.Contains, RemoteProviders, LocalProviders, ClientProviders,
    Method2FAProviders, List.elem_eq_mem, decide_eq_true_eq, List.mem_cons, List.mem_singleton,
    List.not_mem_nil, or_false]
  refine ⟨?_, ?_, ?_, ?_, ?_⟩
  · rintro ⟨h1, h2⟩; rw [h1] at h2; exact absurd h2 (by decide)
  · rintro ⟨h1, h2⟩; rw [h1] at h2; exact absurd h2 (by decide)
  · rintro ⟨h1, h2⟩; rw [h1] at h2; exact absurd h2 (by decide)
  · rintro ⟨h1 | h1 | h1, h2⟩ <;> rw [h1] at h2 <;> exact absurd h2 (by decide)
  · rintro (h | h)
    · exact Or.inr (Or.inr h)
    · exact Or.inr (Or.inl h)

end Authn
